import Mathlib

/-!
Shallow embedding of the attachment/identity resolution and best-effort
decryption pipeline of the SignalExport repository
(`src/signal_export/exporter.py` and `src/signal_export/utils.py`).

Pure Python computations (string heuristics, regex checks, entropy, key
decoding, JSON walking) are translated into executable Lean functions over
`List Char` / `List Nat`.  Effectful operations (file reads, the external
`openssl` subprocess) are modelled by explicit parameters: a fallible read
is an `Option (List Nat)` (`none` = the read raised), a subprocess run is a
function returning `Option (Nat × List Nat)` (`none` = the invocation
raised, otherwise return code and bytes written to the destination file).
Python floats are modelled as real numbers.
-/

set_option maxRecDepth 10000

namespace SignalExport

/-! ## Python string primitives -/

/-- Python whitespace characters, as used by `str.strip` and the regex
class `\s`. -/
def isPySpace (c : Char) : Bool :=
  c = ' ' || c = '\t' || c = '\n' || c = '\r' || c = '\x0b' || c = '\x0c'

/-- Python `str.strip()` on a character list. -/
def pyStripList (cs : List Char) : List Char :=
  ((cs.dropWhile isPySpace).reverse.dropWhile isPySpace).reverse

/-- Python `str.strip()`. -/
def pyStrip (s : String) : String :=
  ⟨pyStripList s.toList⟩

/-- Python `str.lower()` (ASCII, which covers every string the pipeline
compares). -/
def pyLower (s : String) : String :=
  ⟨s.toList.map Char.toLower⟩

/-- Python's substring test `needle in hay` on lists (characters of a
string, or bytes). -/
def listContainsSub {α : Type} [BEq α] (hay needle : List α) : Bool :=
  match hay with
  | [] => needle.isEmpty
  | c :: t => needle.isPrefixOf (c :: t) || listContainsSub t needle

/-- Python's substring test `sub in hay` on strings. -/
def pyContains (hay sub : String) : Bool :=
  listContainsSub hay.toList sub.toList

/-! ## Call-event classification (exporter.py lines 404-451)

`run_export` classifies each freshly seen message row.  The relevant raw
columns are the message type tag `mtype`, the body, and the
`isChangeCreatedByUs` column (modelled as the boolean `is_me_change`);
`NULL` columns arrive as `none`. -/

/-- The body phrases that suggest a call event
(exporter.py `call_patterns`). -/
def call_patterns : List String :=
  ["incoming call", "outgoing call", "missed call",
   "incoming voice call", "outgoing voice call", "missed voice call",
   "incoming video call", "outgoing video call", "missed video call",
   "voice call", "video call"]

/-- The classified fields of a message as stored in the `msg` dict: the
outgoing flag, the emitted body, the optional `kind` key (present and equal
to `"call"` exactly when the message was classified as a call event) and
the `video` / `missed` keys (absent keys are emitted as `false` by the
final projection, so they are modelled as `false`). -/
structure MsgRec where
  out : Bool
  body : String
  kind : Option String
  video : Bool
  missed : Bool
  deriving Repr, DecidableEq

/-- The local `t` of the message loop: lowercased type tag. -/
def msg_t (mtype : Option String) : String :=
  pyLower (mtype.getD "")

/-- The local `body_raw`: stripped body. -/
def msg_body_raw (body : Option String) : String :=
  pyStrip (body.getD "")

/-- The local `lb`: lowercased stripped body. -/
def msg_lb (body : Option String) : String :=
  pyLower (msg_body_raw body)

/-- The local `is_out` before the missed override:
`"out" in t or r["is_me_change"] == 1`. -/
def msg_is_out (mtype : Option String) (is_me_change : Bool) : Bool :=
  pyContains (msg_t mtype) "out" || is_me_change

/-- The local `is_call_type`: `("call" in t) or (t == "call-history")`. -/
def msg_is_call_type (mtype : Option String) : Bool :=
  pyContains (msg_t mtype) "call" || msg_t mtype == "call-history"

/-- The local `body_suggests_call`. -/
def msg_body_suggests_call (body : Option String) : Bool :=
  call_patterns.any (fun p => pyContains (msg_lb body) p) ||
    (msg_lb body == "call" || msg_lb body == "audio" || msg_lb body == "video")

/-- The local `looks_call`. -/
def msg_looks_call (mtype body : Option String) : Bool :=
  msg_is_call_type mtype || msg_body_suggests_call body

/-- The local `is_video`. -/
def msg_is_video (mtype body : Option String) : Bool :=
  pyContains (msg_t mtype) "video" || pyContains (msg_lb body) "video" ||
    msg_lb body == "video"

/-- The local `missed`. -/
def msg_missed (mtype body : Option String) : Bool :=
  pyContains (msg_t mtype) "miss" || pyContains (msg_lb body) "miss" ||
    pyContains (msg_lb body) "missed"

/-- Classification of an inline message row, translated from
exporter.py lines 404-451 (Python locals become the `msg_*` functions
above). -/
def classify_message (mtype body : Option String) (is_me_change : Bool) : MsgRec :=
  let is_out := msg_is_out mtype is_me_change
  let body_raw := msg_body_raw body
  let looks_call := msg_looks_call mtype body
  let is_video := msg_is_video mtype body
  let missed := msg_missed mtype body
  if looks_call then
    if missed then
      { out := false
        body := if is_video then "Missed video call" else "Missed voice call"
        kind := some "call", video := is_video, missed := true }
    else if is_out then
      { out := true
        body := if is_video then "Outgoing video call" else "Outgoing voice call"
        kind := some "call", video := is_video, missed := false }
    else
      { out := false
        body := if is_video then "Incoming video call" else "Incoming voice call"
        kind := some "call", video := is_video, missed := false }
  else
    { out := is_out, body := body_raw, kind := none, video := false, missed := false }

/-- A record synthesized from the `callsHistory` table; such records always
carry `kind = "call"` (exporter.py lines 516-544 and 548-577). -/
structure CallRec where
  out : Bool
  body : String
  video : Bool
  missed : Bool
  deriving Repr, DecidableEq

/-- The local `t` of the callsHistory loop: lowercased call type column. -/
def ch_t (ctype : Option String) : String :=
  pyLower (ctype.getD "")

/-- Classification of a `callsHistory` row from its type column,
translated from exporter.py lines 518-530 (identical logic at 551-563). -/
def classify_call_history (ctype : Option String) : CallRec :=
  let t := ch_t ctype
  let is_video := pyContains t "video"
  let missed := pyContains t "miss"
  let outb := pyContains t "out" || pyContains t "placed"
  if missed then
    { out := false
      body := if is_video then "Missed video call" else "Missed voice call"
      video := is_video, missed := true }
  else if outb then
    { out := true
      body := if is_video then "Outgoing video call" else "Outgoing voice call"
      video := is_video, missed := false }
  else if pyContains t "in" || pyContains t "received" then
    { out := false
      body := if is_video then "Incoming video call" else "Incoming voice call"
      video := is_video, missed := false }
  else
    { out := outb, body := "Call", video := is_video, missed := false }

/-! ## Identity helpers (utils.py) and the thread label pipeline -/

/-- The characters replaced by the `safe` regex `[/\\:*?"<>|]+`. -/
def safeBad (c : Char) : Bool :=
  c = '/' || c = '\\' || c = ':' || c = '*' || c = '?' || c = '"' ||
    c = '<' || c = '>' || c = '|'

/-- Replace each maximal run of `safeBad` characters with a single
underscore (the effect of `re.sub` with a `+`-quantified class); the flag
records whether the previous character was part of a bad run. -/
def collapseBadAux (prevBad : Bool) : List Char → List Char
  | [] => []
  | c :: t =>
    if safeBad c then
      (if prevBad then [] else ['_']) ++ collapseBadAux true t
    else
      c :: collapseBadAux false t

/-- utils.safe: sanitize a display label for filesystem use. -/
def safe (name : String) : String :=
  let n0 := if name = "" then "unknown" else name
  let n1 := pyStripList n0.toList
  let n2 := (collapseBadAux false n1).take 120
  if n2.isEmpty then "unknown" else ⟨n2⟩

/-- The separator class of utils.first_name, regex `[\s·•|,]+`. -/
def isSepChar (c : Char) : Bool :=
  isPySpace c || c = '·' || c = '•' || c = '|' || c = ','

/-- utils.first_name: first separator-delimited token of the stripped
input (empty when the input is empty or starts, after stripping, with a
separator). -/
def first_name (full : String) : String :=
  if full = "" then ""
  else ⟨(pyStripList full.toList).takeWhile (fun c => !isSepChar c)⟩

/-- Character class of the phone-number regex body `[\d\s\-\(\)]`. -/
def phoneClassChar (c : Char) : Bool :=
  c.isDigit || isPySpace c || c = '-' || c = '(' || c = ')'

/-- Matcher for `\d[\d\s\-\(\)]{3,}` against a whole string. -/
def phone_body (cs : List Char) : Bool :=
  match cs with
  | [] => false
  | d :: rest => d.isDigit && decide (3 ≤ rest.length) && rest.all phoneClassChar

/-- Full match of the phone-number regex `\+?\d[\d\s\-\(\)]{3,}`:
the optional leading plus is consumed when present (a digit must follow
either way, so the regex is deterministic). -/
def phone_like_chars (cs : List Char) : Bool :=
  match cs with
  | [] => false
  | c :: t => if c = '+' then phone_body t else phone_body (c :: t)

/-- Character class of the hex-identifier regex `[0-9a-fA-F-]`. -/
def hexClassChar (c : Char) : Bool :=
  c.isDigit || ('a' ≤ c && c ≤ 'f') || ('A' ≤ c && c ≤ 'F') || c = '-'

/-- Full match of the hex-identifier regex `[0-9a-fA-F-]{8,}`. -/
def hex_like_chars (cs : List Char) : Bool :=
  decide (8 ≤ cs.length) && cs.all hexClassChar

/-- utils.looks_unknown translated: empty labels, `conv:`-prefixed labels,
phone-number-like labels and long hex-like labels are "unknown". -/
def looks_unknown (label : String) : Bool :=
  label == "" || List.isPrefixOf "conv:".toList label.toList ||
    phone_like_chars label.toList || hex_like_chars label.toList

/-- Display-name derivation for a conversation row
(exporter.py lines 303-306): a group keeps the raw name verbatim, an
individual keeps `first_name(raw) or raw`. -/
def display_name (raw : String) (group_flag : Bool) : String :=
  if group_flag then raw
  else if first_name raw = "" then raw else first_name raw

/-- The thread grouping label (exporter.py line 396): the sanitized
display name. -/
def thread_label (raw : String) (group_flag : Bool) : String :=
  safe (display_name raw group_flag)

/-- The emitted per-thread unknown-identity flag
(exporter.py line 591). -/
def thread_unknown (raw : String) (group_flag : Bool) : Bool :=
  looks_unknown (thread_label raw group_flag)

/-! ## Binary sniffer and ciphertext heuristic (exporter.py lines 49-83)

A file is modelled by its byte contents (`List Nat`, each value below 256)
together with the result of the `mimetypes.guess_type` extension lookup on
its name (`Option String`, `none` when the table is inconclusive — Python
returns `None` then).  The functions below assume the file exists and is
readable, which is the case the claims are about; read failures degrade to
the extension-based or default result in the source and are not needed
here.  Shannon entropy is real-valued (Python floats are modelled as
reals). -/

/-- `bytes.startswith` on byte lists. -/
def bytesStartWith (data p : List Nat) : Bool :=
  p.isPrefixOf data

/-- Magic prefix `\x89PNG`. -/
def pngMagic : List Nat := [0x89, 0x50, 0x4E, 0x47]

/-- Magic prefix `\xFF\xD8\xFF`. -/
def jpegMagic : List Nat := [0xFF, 0xD8, 0xFF]

/-- Magic `GIF87a`. -/
def gif87Magic : List Nat := [0x47, 0x49, 0x46, 0x38, 0x37, 0x61]

/-- Magic `GIF89a`. -/
def gif89Magic : List Nat := [0x47, 0x49, 0x46, 0x38, 0x39, 0x61]

/-- Magic prefix `RIFF`. -/
def riffMagic : List Nat := [0x52, 0x49, 0x46, 0x46]

/-- Marker `WEBP`. -/
def webpMark : List Nat := [0x57, 0x45, 0x42, 0x50]

/-- Magic prefix `%PDF`. -/
def pdfMagic : List Nat := [0x25, 0x50, 0x44, 0x46]

/-- exporter.guess_mime for an existing readable file: the
extension-table lookup result wins when conclusive; otherwise the first
16 bytes are probed against the fixed magic table; the default is the
generic octet-stream type. -/
def guess_mime (extMime : Option String) (data : List Nat) : String :=
  match extMime with
  | some m => m
  | none =>
    let head := data.take 16
    if bytesStartWith head pngMagic then "image/png"
    else if bytesStartWith head jpegMagic then "image/jpeg"
    else if head.take 6 == gif87Magic || head.take 6 == gif89Magic then "image/gif"
    else if bytesStartWith head riffMagic && listContainsSub head webpMark then "image/webp"
    else if bytesStartWith head pdfMagic then "application/pdf"
    else "application/octet-stream"

/-- One summand of the entropy histogram sum: the contribution of a byte
value with count `c` in a sample of length `n` (counts of zero contribute
nothing, mirroring the `if c` filter of the Python generator). -/
noncomputable def entTerm (c n : Nat) : ℝ :=
  if c = 0 then 0 else ((c : ℝ) / (n : ℝ)) * Real.logb 2 ((c : ℝ) / (n : ℝ))

/-- exporter.byte_entropy: Shannon entropy in bits per byte over the
byte-value histogram; zero for empty input. -/
noncomputable def byte_entropy (b : List Nat) : ℝ :=
  if b.isEmpty then 0
  else -(∑ i ∈ Finset.range 256, entTerm (b.count i) b.length)

/-- The magic table of likely_encrypted_file's own early return
(exporter.py line 78): PNG, JPEG, PDF prefixes and the two GIF variants —
note the absence of WEBP. -/
def ownMagic (b : List Nat) : Bool :=
  bytesStartWith b pngMagic || bytesStartWith b jpegMagic ||
    bytesStartWith b pdfMagic || b.take 6 == gif87Magic || b.take 6 == gif89Magic

/-- exporter.likely_encrypted_file for an existing readable file: false on
an empty sample or a recognized own-table magic prefix, else true exactly
when the sniffed MIME type is the generic octet-stream type and the
entropy of the at-most-4096-byte sample strictly exceeds 7.4 bits/byte.
The early returns of the source are folded into one conjunction, which is
a `Prop` because the entropy comparison is real-valued. -/
def likely_encrypted_file (extMime : Option String) (data : List Nat) : Prop :=
  data.take 4096 ≠ [] ∧ ownMagic (data.take 4096) = false ∧
    guess_mime extMime data = "application/octet-stream" ∧
    byte_entropy (data.take 4096) > 7.4

/-- The recognized-magic table as the claim states it (the binary
sniffer's table, WEBP included).  This definition follows the claim's
words, for the counterexample statement; the code's own early-return
table is `ownMagic`. -/
def claim_magic (b : List Nat) : Bool :=
  bytesStartWith b pngMagic || bytesStartWith b jpegMagic ||
    b.take 6 == gif87Magic || b.take 6 == gif89Magic ||
    (bytesStartWith b riffMagic && listContainsSub (b.take 16) webpMark) ||
    bytesStartWith b pdfMagic

/-- Header of the C2 counterexample file: `RIFF0123WEBP`. -/
def cexHeader : List Nat :=
  [0x52, 0x49, 0x46, 0x46, 0x30, 0x31, 0x32, 0x33, 0x57, 0x45, 0x42, 0x50]

/-- Filler making every byte value appear exactly twice overall. -/
def cexRest : List Nat :=
  (List.range 256).flatMap (fun v => List.replicate (2 - cexHeader.count v) v)

/-- The C2 counterexample file: a WEBP-headed 512-byte file with a
uniform byte histogram (entropy exactly 8 bits/byte). -/
def cexBytes : List Nat := cexHeader ++ cexRest

/-! ## Key material decoding (exporter.py lines 86-103 and 161-166)

`base64.b64decode(s, validate=False)` and `bytes.fromhex` are CPython
library primitives; they are modelled after CPython 3.11's `binascii`
semantics: non-alphabet characters are discarded, a padding character only
counts once two data characters of the current quad have been seen, a quad
completed by padding ends the decode, and a trailing incomplete quad is an
error (`none`). -/

/-- Value of a base64 alphabet character, `none` for non-alphabet
characters (which non-strict decoding discards). -/
def b64Val (c : Char) : Option Nat :=
  if 'A' ≤ c && c ≤ 'Z' then some (c.toNat - 65)
  else if 'a' ≤ c && c ≤ 'z' then some (c.toNat - 97 + 26)
  else if '0' ≤ c && c ≤ '9' then some (c.toNat - 48 + 52)
  else if c = '+' then some 62
  else if c = '/' then some 63
  else none

/-- Emit the three bytes of a complete base64 quad `[a, b, c, d]`. -/
def b64Emit4 (a b c d : Nat) : List Nat :=
  [a * 4 + b / 16, b % 16 * 16 + c / 4, c % 4 * 64 + d]

/-- Emit the bytes of a quad ended early by padding: two data characters
give one byte, three give two. -/
def b64EmitPartial : List Nat → List Nat
  | [a, b] => [a * 4 + b / 16]
  | [a, b, c] => [a * 4 + b / 16, b % 16 * 16 + c / 4]
  | _ => []

/-- Main decode loop of `binascii.a2b_base64` in non-strict mode.
State: remaining input, bytes emitted, current quad (0-3 values), count
of padding characters seen in the current quad. -/
def b64Aux : List Char → List Nat → List Nat → Nat → Option (List Nat)
  | [], out, buf, _ => if buf.isEmpty then some out else none
  | c :: rest, out, buf, pads =>
    if c = '=' then
      if 2 ≤ buf.length then
        if 4 ≤ buf.length + (pads + 1) then some (out ++ b64EmitPartial buf)
        else b64Aux rest out buf (pads + 1)
      else b64Aux rest out buf pads
    else
      match b64Val c with
      | none => b64Aux rest out buf pads
      | some v =>
        match buf with
        | [a, b, c3] => b64Aux rest (out ++ b64Emit4 a b c3 v) [] 0
        | _ => b64Aux rest out (buf ++ [v]) 0

/-- `base64.b64decode(·, validate=False)` on a character list. -/
def b64decodeList (cs : List Char) : Option (List Nat) :=
  b64Aux cs [] [] 0

/-- Value of a hexadecimal digit. -/
def hexVal (c : Char) : Option Nat :=
  if '0' ≤ c && c ≤ '9' then some (c.toNat - 48)
  else if 'a' ≤ c && c ≤ 'f' then some (c.toNat - 97 + 10)
  else if 'A' ≤ c && c ≤ 'F' then some (c.toNat - 65 + 10)
  else none

/-- `bytes.fromhex`: pairs of hex digits with spaces permitted between
bytes only. -/
def fromhexAux : List Char → Option (List Nat)
  | [] => some []
  | c :: rest =>
    if c = ' ' then fromhexAux rest
    else
      match hexVal c, rest with
      | some h, c2 :: rest2 =>
        (match hexVal c2 with
         | some l => (fromhexAux rest2).map (fun bs => (h * 16 + l) :: bs)
         | none => none)
      | _, _ => none

/-- Keep a decode result only when it produced at least one byte
(the `if out:` test of the padding loop). -/
def goodOut : Option (List Nat) → Option (List Nat)
  | some out => if out.isEmpty then none else some out
  | none => none

/-- exporter.b64_or_hex_to_bytes: strip, try base64 with zero, one and two
appended padding characters (first nonempty result wins), then fall back
to hex decoding. -/
def b64_or_hex_to_bytes (s : Option String) : Option (List Nat) :=
  match s with
  | none => none
  | some s0 =>
    if s0 = "" then none
    else
      let s1 := pyStripList s0.toList
      match goodOut (b64decodeList s1) with
      | some out => some out
      | none =>
        match goodOut (b64decodeList (s1 ++ ['='])) with
        | some out => some out
        | none =>
          match goodOut (b64decodeList (s1 ++ ['=', '='])) with
          | some out => some out
          | none => fromhexAux s1

/-- One candidate of the key loop in best_effort_decrypt (line 163):
`b64_or_hex_to_bytes(s) if s else None`. -/
def keyFrom (s : Option String) : Option (List Nat) :=
  match s with
  | none => none
  | some str => if str = "" then none else b64_or_hex_to_bytes (some str)

/-- The key-selection loop of best_effort_decrypt (lines 161-166) over an
ordered candidate list: first candidate decoding to a nonempty byte string
of length at least 32 wins and is truncated to 32 bytes. -/
def pick_key : List (Option String) → Option (List Nat)
  | [] => none
  | s :: rest =>
    match keyFrom s with
    | some b =>
      if !b.isEmpty && decide (32 ≤ b.length) then some (b.take 32)
      else pick_key rest
    | none => pick_key rest

/-- Key extraction over the two candidate columns, as invoked by
best_effort_decrypt with `(local_key, key_alt)`. -/
def extract_key (local_key key_alt : Option String) : Option (List Nat) :=
  pick_key [local_key, key_alt]

/-- Length of a candidate's decoded bytes, zero when it does not decode. -/
def keyLen (s : Option String) : Nat :=
  match keyFrom s with
  | some b => b.length
  | none => 0

/-! ## Decryption attempts (exporter.py lines 114-171)

A decryption attempt reads the source file, shells out to openssl with the
unpacked layout pieces, and reports success as a boolean.  The read is
modelled as `Option (List Nat)` (`none` = the read raised) and the
subprocess as a function to `Option (Nat × List Nat)` (`none` = the
invocation raised, otherwise the return code and the bytes written to the
opened destination file).  An attempt returns its boolean result together
with the final state of the destination file (`none` = absent / removed by
cleanup, `some out` = present with contents `out`).  Exceptions cannot
propagate: the model is a total function, mirroring the `try/except`
wrapper that collapses every failure to `False` plus cleanup. -/

/-- Result of one openssl invocation. -/
abbrev ProcRun := List Nat → List Nat → List Nat → List Nat → Option (Nat × List Nat)

/-- exporter.try_decrypt_gcm: layout `[12-byte nonce][ciphertext][16-byte
tag]`, rejected upfront below 28 bytes; the subprocess receives the key,
the nonce, the ciphertext body and the tag; success requires return code 0
and a nonempty destination, any failure removes the destination. -/
def try_decrypt_gcm (readRes : Option (List Nat)) (key32 : List Nat)
    (proc : ProcRun) : Bool × Option (List Nat) :=
  match readRes with
  | none => (false, none)
  | some data =>
    if data.length < 28 then (false, none)
    else
      match proc key32 (data.take 12) ((data.drop 12).take (data.length - 28))
          (data.drop (data.length - 16)) with
      | none => (false, none)
      | some (rc, out) =>
        if rc == 0 && !out.isEmpty then (true, some out) else (false, none)

/-- exporter.try_decrypt_cbc: layout `[16-byte IV][ciphertext]`, rejected
upfront below 32 bytes; the subprocess receives the key, the IV and the
ciphertext body (no tag, passed as `[]`); same success and cleanup rule. -/
def try_decrypt_cbc (readRes : Option (List Nat)) (key32 : List Nat)
    (proc : ProcRun) : Bool × Option (List Nat) :=
  match readRes with
  | none => (false, none)
  | some data =>
    if data.length < 32 then (false, none)
    else
      match proc key32 (data.take 16) (data.drop 16) [] with
      | none => (false, none)
      | some (rc, out) =>
        if rc == 0 && !out.isEmpty then (true, some out) else (false, none)

/-- The two cipher-mode conventions. -/
inductive DecMode
  | gcm
  | cbc
  deriving Repr, DecidableEq

/-- Line 169 of best_effort_decrypt:
`try_decrypt_gcm(...) or try_decrypt_cbc(...)` with Python's
short-circuiting `or`.  The result records which mode succeeded and with
which output; the second component is the trace of attempts actually made,
in order.  Each attempt re-reads the source file, hence the two read
results. -/
def attempt_decrypt (read1 read2 : Option (List Nat)) (key32 : List Nat)
    (gcmProc cbcProc : ProcRun) :
    Option (DecMode × List Nat) × List DecMode :=
  match try_decrypt_gcm read1 key32 gcmProc with
  | (true, some out) => (some (DecMode.gcm, out), [DecMode.gcm])
  | _ =>
    match try_decrypt_cbc read2 key32 cbcProc with
    | (true, some out) => (some (DecMode.cbc, out), [DecMode.gcm, DecMode.cbc])
    | _ => (none, [DecMode.gcm, DecMode.cbc])

/-- exporter.best_effort_decrypt (lines 156-171): availability probe and
source existence, key selection over the two candidate columns, then the
ordered attempts. -/
def best_effort_decrypt (available srcExists : Bool)
    (local_key key_alt : Option String) (read1 read2 : Option (List Nat))
    (gcmProc cbcProc : ProcRun) : Option (DecMode × List Nat) :=
  if !available || !srcExists then none
  else
    match extract_key local_key key_alt with
    | none => none
    | some key32 => (attempt_decrypt read1 read2 key32 gcmProc cbcProc).1

/-! ## Attachment processing (exporter.py lines 454-495)

The per-attachment block copies the source into the asset tree, sniffs
its MIME, runs the ciphertext heuristic, and best-effort-decrypts when key
material is present.  The filesystem interactions are modelled by an
environment record: the copied destination's bytes and extension lookup,
the boolean result of the (real-valued) ciphertext heuristic on the
destination, and the result of best_effort_decrypt (`none` = no decrypted
file; otherwise its relative path, extension lookup and bytes, plus the
`dec.exists()` probe).  Only `shutil.copy2` can raise inside the
`try` block (every callee catches internally), which `copyRaises`
models. -/

/-- Python string-or-`None` falsiness. -/
def pyFalsy : Option String → Bool
  | none => true
  | some s => s == ""

/-- `str.startswith` on strings. -/
def pyStartsWith (s p : String) : Bool :=
  p.toList.isPrefixOf s.toList

/-- exporter.icon_for_mime: icon classification of a MIME type. -/
def icon_for_mime (mtype : String) : String :=
  if mtype == "" then "📁"
  else if pyStartsWith mtype "image/" then "🖼️"
  else if pyStartsWith mtype "video/" then "🎞️"
  else if pyStartsWith mtype "audio/" then "🎵"
  else if mtype == "application/pdf" then "📄"
  else if mtype == "application/zip" || mtype == "application/x-7z-compressed" ||
      mtype == "application/x-rar-compressed" then "🗜️"
  else if pyStartsWith mtype "text/" then "📄"
  else if mtype == "application/msword" ||
      mtype == "application/vnd.openxmlformats-officedocument.wordprocessingml.document"
    then "📝"
  else if mtype == "application/vnd.ms-excel" ||
      mtype == "application/vnd.openxmlformats-officedocument.spreadsheetml.sheet"
    then "📊"
  else if mtype == "application/vnd.ms-powerpoint" ||
      mtype == "application/vnd.openxmlformats-officedocument.presentationml.presentation"
    then "📽️"
  else "📦"

/-- The emitted attachment record (exporter.py lines 486-495). -/
structure Att where
  name : String
  path : Option String
  mime : String
  icon : String
  likelyEncrypted : Bool
  originalPath : Option String
  localKey : Option String
  contentType : Option String
  deriving Repr, DecidableEq

/-- Environment of one attachment: results of the filesystem and
subprocess interactions. -/
structure AttEnv where
  srcExists : Bool
  copyRaises : Bool
  destRel : String
  destExtMime : Option String
  destBytes : List Nat
  encDest : Bool
  decResult : Option (String × Option String × List Nat)
  decExists : Bool

/-- The per-attachment processing of run_export (lines 454-495),
producing the emitted record. -/
def process_attachment (env : AttEnv)
    (fileName localKey keyAlt contentType : Option String) : Att :=
  if env.srcExists then
    if env.copyRaises then
      { name := fileName.getD "", path := none, mime := "", icon := "📁",
        likelyEncrypted := false, originalPath := none,
        localKey := localKey, contentType := contentType }
    else
      let mtype := guess_mime env.destExtMime env.destBytes
      let icon := icon_for_mime mtype
      if env.encDest && !(pyFalsy localKey && pyFalsy keyAlt) then
        match env.decResult with
        | some (drel, dext, dbytes) =>
          if env.decExists then
            { name := fileName.getD "", path := some drel,
              mime := guess_mime dext dbytes,
              icon := icon_for_mime (guess_mime dext dbytes),
              likelyEncrypted := false, originalPath := some env.destRel,
              localKey := localKey, contentType := contentType }
          else
            { name := fileName.getD "", path := some env.destRel, mime := mtype,
              icon := icon, likelyEncrypted := env.encDest, originalPath := none,
              localKey := localKey, contentType := contentType }
        | none =>
          { name := fileName.getD "", path := some env.destRel, mime := mtype,
            icon := icon, likelyEncrypted := env.encDest, originalPath := none,
            localKey := localKey, contentType := contentType }
      else
        { name := fileName.getD "", path := some env.destRel, mime := mtype,
          icon := icon, likelyEncrypted := env.encDest, originalPath := none,
          localKey := localKey, contentType := contentType }
  else
    { name := fileName.getD "", path := none, mime := "", icon := "📁",
      likelyEncrypted := false, originalPath := none,
      localKey := localKey, contentType := contentType }

/-! ## Thread assembly tail (exporter.py lines 579-601) -/

/-- An in-memory message dict as built by the message loop. -/
structure Msg where
  id : String
  ts : Int
  sender : String
  out : Bool
  body : String
  atts : List Att
  group : Bool
  kind : Option String
  video : Bool
  missed : Bool
  deriving Repr, DecidableEq

/-- The survival predicate of line 580:
`m["body"].strip() or any(a.get("path") for a in m["atts"])`. -/
def keep_message (m : Msg) : Bool :=
  !(pyStrip m.body == "") || m.atts.any (fun a => !pyFalsy a.path)

/-- The per-thread sort key of line 583: `(m["ts"], m["id"])`,
lexicographically. -/
def msgLe (a b : Msg) : Bool :=
  decide (a.ts < b.ts) || (a.ts == b.ts && decide (a.id ≤ b.id))

/-- The projected message shape of lines 594-598. -/
structure MsgOut where
  ts : Int
  sender : String
  out : Bool
  body : String
  atts : List Att
  group : Bool
  kind : Option String
  video : Bool
  missed : Bool
  deriving Repr, DecidableEq

/-- Projection of a message dict to its emitted shape (drops the id;
absent kind/video/missed keys were modelled as `none` / `false`). -/
def projMsg (m : Msg) : MsgOut :=
  { ts := m.ts, sender := m.sender, out := m.out, body := m.body,
    atts := m.atts, group := m.group, kind := m.kind, video := m.video,
    missed := m.missed }

/-- An emitted thread record (lines 588-601). -/
structure ThreadOut where
  thread : String
  unknown : Bool
  avatar : String
  avatarEncrypted : Bool
  messages : List MsgOut
  deriving Repr, DecidableEq

/-- The top-level sort key of line 586: case-insensitive display label. -/
def labelLe (a b : String × List Msg) : Bool :=
  decide (pyLower a.1 ≤ pyLower b.1)

/-- The output-assembly tail of run_export (lines 579-601): drop
non-surviving messages, sort each thread by (timestamp, id), sort threads
by case-insensitive label, and emit each nonempty thread with its
unknown-identity flag and avatar lookups. -/
def build_data (threads : List (String × List Msg))
    (avatarOf : String → Option String) (avatarEnc : String → Bool) :
    List ThreadOut :=
  let filtered := threads.map (fun p => (p.1, p.2.filter keep_message))
  let sorted := (filtered.map (fun p => (p.1, p.2.mergeSort msgLe))).mergeSort labelLe
  sorted.filterMap (fun p =>
    if p.2.isEmpty then none
    else some { thread := p.1, unknown := looks_unknown p.1,
                avatar := (avatarOf p.1).getD "", avatarEncrypted := avatarEnc p.1,
                messages := p.2.map projMsg })

/-- Witness environment for C5: an encrypted-looking attachment that
decrypts to a PNG. -/
def c5EnvW : AttEnv :=
  { srcExists := true, copyRaises := false, destRel := "assets/t/ab12cd34_x.bin",
    destExtMime := some "application/octet-stream", destBytes := [1, 2, 3],
    encDest := true,
    decResult := some ("assets/t/dec_x.bin", none, [0x89, 0x50, 0x4E, 0x47, 0]),
    decExists := true }

/-- Witness message for C8 with an empty body and a pathless
attachment. -/
def c8MsgEmpty : Msg :=
  { id := "1", ts := 0, sender := "", out := false, body := "  ",
    atts := [{ name := "a", path := none, mime := "", icon := "📁",
               likelyEncrypted := false, originalPath := none,
               localKey := none, contentType := none }],
    group := false, kind := none, video := false, missed := false }

/-- Witness message for C8 that survives filtering. -/
def c8MsgGood : Msg :=
  { id := "2", ts := 5, sender := "me", out := true, body := "hi",
    atts := [], group := false, kind := none, video := false, missed := false }

/-- Witness thread table for C8. -/
def c8Threads : List (String × List Msg) := [("a", [c8MsgEmpty, c8MsgGood])]

/-- The thread record the C8 witness table builds. -/
def c8ThreadOut : ThreadOut :=
  { thread := "a", unknown := false, avatar := "", avatarEncrypted := false,
    messages := [projMsg c8MsgGood] }

/-! ## Avatar key-material extraction (exporter.py lines 174-206)

`_parse_avatar_info_from_json` walks a `json.loads` result.  The input is
modelled as `Option (Except Unit JVal)`: `none` is a falsy argument
(absent or empty string), `Except.error` a parse failure (the raised
`json` exception is caught, yielding no path and no keys), `Except.ok`
the parsed value.  A parsed non-object makes the first `obj.get` raise
`AttributeError`, which the same handler catches while all three slots
are still `None`.  The function is total: no exception propagates. -/

/-- JSON values as produced by `json.loads` (numbers carry no payload
because the extractor never inspects them). -/
inductive JVal
  | str (s : String)
  | num
  | bool (b : Bool)
  | null
  | arr (xs : List JVal)
  | obj (fields : List (String × JVal))

/-- Dictionary lookup; on duplicate keys `json.loads` keeps the last
occurrence, so the last binding wins. -/
def jGet (fields : List (String × JVal)) (k : String) : Option JVal :=
  match fields with
  | [] => none
  | (k0, v) :: rest =>
    match jGet rest k with
    | some v' => some v'
    | none => if k0 == k then some v else none

/-- The `isinstance(·, str)` guard: the value when it is a string. -/
def asStr : Option JVal → Option String
  | some (JVal.str s) => some s
  | _ => none

/-- The known container keys, in loop order. -/
def containerKeys : List String := ["profileAvatarPath", "avatarPath", "profileAvatar"]

/-- The path-like field names. -/
def pathFields : List String := ["path", "avatarPath", "filePath"]

/-- The key-like field names. -/
def keyFields : List String :=
  ["localKey", "key", "profileKey", "attachmentKey", "keyMaterial"]

/-- The path loop:
`if isinstance(v.get(k2), str) and not path: path = v[k2]`. -/
def pathFold (v : List (String × JVal)) : List String → Option String → Option String
  | [], p => p
  | k2 :: t, p =>
    pathFold v t
      (if (asStr (jGet v k2)).isSome && pyFalsy p then asStr (jGet v k2) else p)

/-- The single-slot key loop of the container scan:
`if isinstance(v.get(kk), str) and not key1: key1 = v[kk]`. -/
def key1Fold (v : List (String × JVal)) : List String → Option String → Option String
  | [], q => q
  | kk :: t, q =>
    key1Fold v t
      (if (asStr (jGet v kk)).isSome && pyFalsy q then asStr (jGet v kk) else q)

/-- The two-slot key loop of the trailing profileAvatar pass:
a string value fills key1 when key1 is falsy, else key2 when key2 is
falsy. -/
def key12Fold (v : List (String × JVal)) :
    List String → Option String × Option String → Option String × Option String
  | [], q => q
  | kk :: t, q =>
    key12Fold v t
      (match asStr (jGet v kk) with
       | some s =>
         if pyFalsy q.1 then (some s, q.2)
         else if pyFalsy q.2 then (q.1, some s) else q
       | none => q)

/-- One iteration of the container loop (lines 182-192): a dict container
feeds the path and key1 loops, a string container fills the path slot
when falsy, anything else is skipped. -/
def scanContainer (fields : List (String × JVal))
    (st : Option String × Option String) (ck : String) :
    Option String × Option String :=
  match jGet fields ck with
  | some (JVal.obj v) => (pathFold v pathFields st.1, key1Fold v keyFields st.2)
  | some (JVal.str s) => (if pyFalsy st.1 then some s else st.1, st.2)
  | _ => st

/-- The container loop over the three known container keys. -/
def scanContainers (fields : List (String × JVal)) :
    List String → (Option String × Option String) → Option String × Option String
  | [], st => st
  | ck :: t, st => scanContainers fields t (scanContainer fields st ck)

/-- The trailing profileAvatar pass (lines 193-203): only a dict is
scanned (`or {}` turns every falsy value into an empty dict, and a
non-dict truthy value fails the `isinstance` guard; an empty dict makes
both loops no-ops, so the object case subsumes it). -/
def scanPA (fields : List (String × JVal))
    (st : Option String × Option String × Option String) :
    Option String × Option String × Option String :=
  match jGet fields "profileAvatar" with
  | some (JVal.obj v) =>
    (pathFold v pathFields st.1,
     key12Fold v keyFields (st.2.1, st.2.2))
  | _ => st

/-- exporter._parse_avatar_info_from_json as a total function of the
modelled `json.loads` outcome. -/
def parse_avatar_info_from_json (js : Option (Except Unit JVal)) :
    Option String × Option String × Option String :=
  match js with
  | none => (none, none, none)
  | some (Except.error _) => (none, none, none)
  | some (Except.ok (JVal.obj fields)) =>
    scanPA fields ((scanContainers fields containerKeys (none, none)).1,
      (scanContainers fields containerKeys (none, none)).2, none)
  | some (Except.ok _) => (none, none, none)

/-- A string is a key-like candidate of a JSON object when one of the
three containers is a dict holding it under one of the key-like field
names. -/
def keyCandidate (fields : List (String × JVal)) (k : String) : Prop :=
  ∃ ck ∈ containerKeys, ∃ v, jGet fields ck = some (JVal.obj v) ∧
    ∃ kk ∈ keyFields, asStr (jGet v kk) = some k

/-- A string is a profileAvatar key candidate when the profileAvatar
container is a dict holding it under a key-like field name. -/
def paKeyCandidate (fields : List (String × JVal)) (k : String) : Prop :=
  ∃ v, jGet fields "profileAvatar" = some (JVal.obj v) ∧
    ∃ kk ∈ keyFields, asStr (jGet v kk) = some k

/-- The C10 counterexample blob:
`{"profileAvatar": {"localKey": "K"}}`. -/
def c10Fields : List (String × JVal) :=
  [("profileAvatar", JVal.obj [("localKey", JVal.str "K")])]

/-! ## Theorems -/

/-- Shape of an authenticated attempt: failure is exactly `(false, none)`
(result false, destination removed), success carries a nonempty output. -/
theorem try_gcm_shape (r : Option (List Nat)) (k : List Nat) (p : ProcRun) :
    try_decrypt_gcm r k p = (false, none) ∨
      ∃ out, out ≠ [] ∧ try_decrypt_gcm r k p = (true, some out) := by
  unfold try_decrypt_gcm
  cases r with
  | none => exact Or.inl rfl
  | some data =>
    by_cases h : data.length < 28
    · simp [h]
    · simp only [if_neg h]
      cases p k (data.take 12) ((data.drop 12).take (data.length - 28))
          (data.drop (data.length - 16)) with
      | none => exact Or.inl rfl
      | some pr =>
        obtain ⟨rc, out⟩ := pr
        by_cases hc : (rc == 0 && !out.isEmpty) = true
        · refine Or.inr ⟨out, ?_, by simp [hc]⟩
          have h2 := (Bool.and_eq_true _ _).mp hc |>.2
          simpa using h2
        · rw [Bool.not_eq_true] at hc
          simp [hc]

/-- Shape of an unauthenticated attempt: same dichotomy as
`try_gcm_shape`. -/
theorem try_cbc_shape (r : Option (List Nat)) (k : List Nat) (p : ProcRun) :
    try_decrypt_cbc r k p = (false, none) ∨
      ∃ out, out ≠ [] ∧ try_decrypt_cbc r k p = (true, some out) := by
  unfold try_decrypt_cbc
  cases r with
  | none => exact Or.inl rfl
  | some data =>
    by_cases h : data.length < 32
    · simp [h]
    · simp only [if_neg h]
      cases p k (data.take 16) (data.drop 16) [] with
      | none => exact Or.inl rfl
      | some pr =>
        obtain ⟨rc, out⟩ := pr
        by_cases hc : (rc == 0 && !out.isEmpty) = true
        · refine Or.inr ⟨out, ?_, by simp [hc]⟩
          have h2 := (Bool.and_eq_true _ _).mp hc |>.2
          simpa using h2
        · rw [Bool.not_eq_true] at hc
          simp [hc]

/-- C4: a single decryption attempt (authenticated or unauthenticated)
never lets an exception propagate — raising reads and subprocess calls are
the `none`-valued inputs of these total functions — and every failure
yields the boolean `false` with the partially written destination file
removed (final state `none`), while success yields `true` with a nonempty
destination. -/
theorem C4_attempt_no_propagation (r1 r2 : Option (List Nat)) (k : List Nat)
    (p1 p2 : ProcRun) :
    (try_decrypt_gcm r1 k p1 = (false, none) ∨
      ∃ out, out ≠ [] ∧ try_decrypt_gcm r1 k p1 = (true, some out)) ∧
    (try_decrypt_cbc r2 k p2 = (false, none) ∨
      ∃ out, out ≠ [] ∧ try_decrypt_cbc r2 k p2 = (true, some out)) :=
  ⟨try_gcm_shape r1 k p1, try_cbc_shape r2 k p2⟩

/-- C1: the attempter always tries the authenticated convention first
(the trace starts with `gcm`); when the authenticated attempt succeeds its
result is returned and the unauthenticated attempt is never made (the
trace is exactly `[gcm]`); the unauthenticated attempt appears in the
trace only after the authenticated one failed; inputs shorter than 28
(resp. 32) bytes are rejected upfront by the authenticated
(resp. unauthenticated) attempt. -/
theorem C1_decrypt_order (read1 read2 : Option (List Nat)) (key32 : List Nat)
    (gcmProc cbcProc : ProcRun) :
    ((attempt_decrypt read1 read2 key32 gcmProc cbcProc).2.head? =
      some DecMode.gcm) ∧
    (∀ out, try_decrypt_gcm read1 key32 gcmProc = (true, some out) →
      attempt_decrypt read1 read2 key32 gcmProc cbcProc =
        (some (DecMode.gcm, out), [DecMode.gcm])) ∧
    (DecMode.cbc ∈ (attempt_decrypt read1 read2 key32 gcmProc cbcProc).2 →
      try_decrypt_gcm read1 key32 gcmProc = (false, none)) ∧
    (∀ data, read1 = some data → data.length < 28 →
      try_decrypt_gcm read1 key32 gcmProc = (false, none)) ∧
    (∀ data, read2 = some data → data.length < 32 →
      try_decrypt_cbc read2 key32 cbcProc = (false, none)) := by
  refine ⟨?_, ?_, ?_, ?_, ?_⟩
  case _ =>
    rcases try_gcm_shape read1 key32 gcmProc with hg | ⟨out, hne, hg⟩
    · rcases try_cbc_shape read2 key32 cbcProc with hcb | ⟨o2, hne2, hcb⟩ <;>
        simp [attempt_decrypt, hg, hcb]
    · simp [attempt_decrypt, hg]
  case _ =>
    intro out hg
    simp [attempt_decrypt, hg]
  case _ =>
    intro hmem
    rcases try_gcm_shape read1 key32 gcmProc with hg | ⟨out, hne, hg⟩
    · exact hg
    · exfalso
      simp [attempt_decrypt, hg] at hmem
  case _ =>
    intro data h1 h2
    rw [h1]
    unfold try_decrypt_gcm
    simp [h2]
  case _ =>
    intro data h1 h2
    rw [h1]
    unfold try_decrypt_cbc
    simp [h2]

/-- Closed witness for C1: a 28-byte file whose authenticated attempt
succeeds is returned from the authenticated mode with trace `[gcm]`. -/
theorem C1_decrypt_order_witness :
    attempt_decrypt (some (List.replicate 28 7)) (some (List.replicate 28 7))
        (List.replicate 32 0) (fun _ _ _ _ => some (0, [9]))
        (fun _ _ _ _ => some (0, [8])) =
      (some (DecMode.gcm, [9]), [DecMode.gcm]) := by
  have h := (C1_decrypt_order (some (List.replicate 28 7))
      (some (List.replicate 28 7)) (List.replicate 32 0)
      (fun _ _ _ _ => some (0, [9])) (fun _ _ _ _ => some (0, [8]))).2.1
  exact h [9] (by decide)

/-- C3: key extraction accepts the first candidate decoding to at least 32
bytes and truncates it to exactly 32; when the first fails and the second
decodes to at least 32 bytes the second is chosen; when neither decodes to
at least 32 bytes the result is `none`. -/
theorem C3_key_extraction (lk ka : Option String) :
    (∀ b, keyFrom lk = some b → 32 ≤ b.length →
      extract_key lk ka = some (b.take 32) ∧ (b.take 32).length = 32) ∧
    (keyLen lk < 32 → ∀ b, keyFrom ka = some b → 32 ≤ b.length →
      extract_key lk ka = some (b.take 32) ∧ (b.take 32).length = 32) ∧
    (keyLen lk < 32 → keyLen ka < 32 → extract_key lk ka = none) := by
  refine ⟨?_, ?_, ?_⟩
  case _ =>
    intro b hb hlen
    have hbne : b.isEmpty = false := by
      cases b with
      | nil => simp at hlen
      | cons x xs => rfl
    refine ⟨?_, ?_⟩
    · simp [extract_key, pick_key, hb, hbne, hlen]
    · simp [List.length_take]
      omega
  case _ =>
    intro hfail b hb hlen
    have hbne : b.isEmpty = false := by
      cases b with
      | nil => simp at hlen
      | cons x xs => rfl
    have hskip : ∀ rest, pick_key (lk :: rest) = pick_key rest := by
      intro rest
      cases hk : keyFrom lk with
      | none => simp [pick_key, hk]
      | some b0 =>
        have : b0.length < 32 := by
          have : keyLen lk = b0.length := by simp [keyLen, hk]
          omega
        simp [pick_key, hk, Nat.not_le.mpr this]
    refine ⟨?_, ?_⟩
    · rw [extract_key, hskip]
      simp [pick_key, hb, hbne, hlen]
    · simp [List.length_take]
      omega
  case _ =>
    intro h1 h2
    have hskip : ∀ s rest, keyLen s < 32 → pick_key (s :: rest) = pick_key rest := by
      intro s rest hs
      cases hk : keyFrom s with
      | none => simp [pick_key, hk]
      | some b0 =>
        have : b0.length < 32 := by
          have : keyLen s = b0.length := by simp [keyLen, hk]
          omega
        simp [pick_key, hk, Nat.not_le.mpr this]
    rw [extract_key, hskip lk _ h1, hskip ka _ h2]
    rfl

/-- An all-predicate survives `take`. -/
theorem listAll_take {α : Type} (p : α → Bool) (n : Nat) (l : List α)
    (h : l.all p = true) : (l.take n).all p = true := by
  rw [List.all_eq_true] at h ⊢
  intro x hx
  exact h x (List.mem_of_mem_take hx)

/-- `dropWhile` is the identity when no element satisfies the
predicate. -/
theorem dropWhile_of_all_not {α : Type} (p : α → Bool) (l : List α)
    (h : l.all (fun c => !p c) = true) : l.dropWhile p = l := by
  cases l with
  | nil => rfl
  | cons a t =>
    rw [List.all_cons, Bool.and_eq_true] at h
    have ha : p a = false := by simpa using h.1
    simp [List.dropWhile_cons, ha]

/-- `takeWhile` is the identity when every element satisfies the
predicate. -/
theorem takeWhile_of_all {α : Type} (p : α → Bool) (l : List α)
    (h : l.all p = true) : l.takeWhile p = l := by
  induction l with
  | nil => rfl
  | cons a t ih =>
    rw [List.all_cons, Bool.and_eq_true] at h
    simp [List.takeWhile_cons, h.1, ih h.2]

/-- Stripping a string with no Python whitespace is the identity. -/
theorem pyStripList_id (cs : List Char)
    (h : cs.all (fun c => !isPySpace c) = true) : pyStripList cs = cs := by
  unfold pyStripList
  rw [dropWhile_of_all_not _ _ h]
  rw [dropWhile_of_all_not _ _ (by simpa [List.all_reverse] using h)]
  exact List.reverse_reverse cs

/-- Collapsing bad-character runs is the identity on clean strings. -/
theorem collapse_id (cs : List Char)
    (h : cs.all (fun c => !safeBad c) = true) :
    collapseBadAux false cs = cs := by
  induction cs with
  | nil => rfl
  | cons c t ih =>
    rw [List.all_cons, Bool.and_eq_true] at h
    have hc : safeBad c = false := by simpa using h.1
    unfold collapseBadAux
    simp [hc, ih h.2]

/-- Every character of a collapsed string is an underscore or a clean
character of the input. -/
theorem collapse_mem (cs : List Char) (b : Bool) (c : Char)
    (hc : c ∈ collapseBadAux b cs) :
    c = '_' ∨ (c ∈ cs ∧ safeBad c = false) := by
  induction cs generalizing b with
  | nil => cases hc
  | cons d t ih =>
    unfold collapseBadAux at hc
    by_cases hd : safeBad d = true
    · rw [if_pos hd] at hc
      rcases List.mem_append.mp hc with h | h
      · cases b with
        | true => cases h
        | false =>
          left
          exact (List.mem_singleton).mp h
      · rcases ih true h with h1 | ⟨h1, h2⟩
        · exact Or.inl h1
        · exact Or.inr ⟨List.mem_cons_of_mem d h1, h2⟩
    · rw [if_neg hd] at hc
      rcases List.mem_cons.mp hc with rfl | h
      · right
        exact ⟨List.mem_cons_self _ _, Bool.not_eq_true _ ▸ hd⟩
      · rcases ih false h with h1 | ⟨h1, h2⟩
        · exact Or.inl h1
        · exact Or.inr ⟨List.mem_cons_of_mem d h1, h2⟩

/-- Characters of a string matching the phone-body regex. -/
theorem phone_body_mem (cs : List Char) (h : phone_body cs = true) :
    ∀ c ∈ cs, c.isDigit = true ∨ phoneClassChar c = true := by
  intro c hc
  cases cs with
  | nil => cases hc
  | cons d r =>
    simp only [phone_body, Bool.and_eq_true, decide_eq_true_eq] at h
    obtain ⟨⟨hd, _⟩, hall⟩ := h
    rcases List.mem_cons.mp hc with rfl | hr
    · exact Or.inl hd
    · exact Or.inr (List.all_eq_true.mp hall c hr)

/-- Characters of a string matching the full phone regex. -/
theorem phone_mem (cs : List Char) (h : phone_like_chars cs = true) :
    ∀ c ∈ cs, c = '+' ∨ c.isDigit = true ∨ phoneClassChar c = true := by
  intro c hc
  cases cs with
  | nil => cases hc
  | cons c0 t =>
    simp only [phone_like_chars] at h
    by_cases h0 : c0 = '+'
    · rw [if_pos h0] at h
      rcases List.mem_cons.mp hc with rfl | hr
      · exact Or.inl h0
      · exact Or.inr (phone_body_mem t h c hr)
    · rw [if_neg h0] at h
      exact Or.inr (phone_body_mem (c0 :: t) h c hc)

/-- A phone-body match survives truncation to at least four characters. -/
theorem phone_body_take (cs : List Char) (n : Nat) (h : phone_body cs = true)
    (hn : 3 ≤ n) : phone_body (cs.take (n + 1)) = true := by
  cases cs with
  | nil => simp [phone_body] at h
  | cons d r =>
    rw [List.take_succ_cons]
    simp only [phone_body, Bool.and_eq_true, decide_eq_true_eq] at h ⊢
    obtain ⟨⟨hd, hlen⟩, hall⟩ := h
    refine ⟨⟨hd, ?_⟩, listAll_take _ _ _ hall⟩
    rw [List.length_take]
    omega

/-- A full phone-regex match survives truncation to 120 characters. -/
theorem phone_take (cs : List Char) (h : phone_like_chars cs = true) :
    phone_like_chars (cs.take 120) = true := by
  cases cs with
  | nil => simpa [phone_like_chars] using h
  | cons c0 t =>
    have h120 : (120 : Nat) = 119 + 1 := by norm_num
    have h119 : (119 : Nat) = 118 + 1 := by norm_num
    rw [h120, List.take_succ_cons]
    simp only [phone_like_chars] at h ⊢
    by_cases h0 : c0 = '+'
    · rw [if_pos h0] at h ⊢
      rw [h119]
      exact phone_body_take t 118 h (by omega)
    · rw [if_neg h0] at h ⊢
      cases t with
      | nil => simp [phone_body] at h
      | cons d r =>
        simp only [phone_body, Bool.and_eq_true, decide_eq_true_eq] at h ⊢
        obtain ⟨⟨hd, hlen⟩, hall⟩ := h
        refine ⟨⟨hd, ?_⟩, listAll_take _ _ _ hall⟩
        rw [List.length_take]
        simp only [List.length_cons] at hlen ⊢
        omega

/-- A Python whitespace character is not alphabetic. -/
theorem pySpace_not_alpha (c : Char) (h : isPySpace c = true) :
    c.isAlpha = false := by
  have h' : c = ' ' ∨ c = '\t' ∨ c = '\n' ∨ c = '\r' ∨ c = '\x0b' ∨ c = '\x0c' := by
    simpa [isPySpace, Bool.or_eq_true, decide_eq_true_eq, or_assoc] using h
  rcases h' with rfl | rfl | rfl | rfl | rfl | rfl <;> decide

/-- A phone-regex character that is not whitespace is neither a first-name
separator nor a character that `safe` replaces. -/
theorem phone_char_not_sep_bad (c : Char)
    (h : c = '+' ∨ c.isDigit = true ∨ phoneClassChar c = true)
    (hsp : isPySpace c = false) :
    isSepChar c = false ∧ safeBad c = false := by
  have hcases : c = '+' ∨ c.isDigit = true ∨ c = '-' ∨ c = '(' ∨ c = ')' := by
    rcases h with h | h | h
    · exact Or.inl h
    · exact Or.inr (Or.inl h)
    · have h' : c.isDigit = true ∨ isPySpace c = true ∨ c = '-' ∨ c = '(' ∨ c = ')' := by
        simpa [phoneClassChar, Bool.or_eq_true, decide_eq_true_eq, or_assoc] using h
      rcases h' with h | h | h | h | h
      · exact Or.inr (Or.inl h)
      · rw [h] at hsp
        cases hsp
      · exact Or.inr (Or.inr (Or.inl h))
      · exact Or.inr (Or.inr (Or.inr (Or.inl h)))
      · exact Or.inr (Or.inr (Or.inr (Or.inr h)))
  rcases hcases with rfl | hdig | rfl | rfl | rfl
  · exact ⟨by decide, by decide⟩
  · constructor
    · unfold isSepChar
      rw [hsp]
      simp only [Bool.false_or, Bool.or_eq_false_iff, decide_eq_false_iff_not]
      refine ⟨⟨⟨?_, ?_⟩, ?_⟩, ?_⟩ <;>
        (rintro rfl; exact absurd hdig (by decide))
    · unfold safeBad
      simp only [Bool.or_eq_false_iff, decide_eq_false_iff_not]
      refine ⟨⟨⟨⟨⟨⟨⟨⟨?_, ?_⟩, ?_⟩, ?_⟩, ?_⟩, ?_⟩, ?_⟩, ?_⟩, ?_⟩ <;>
        (rintro rfl; exact absurd hdig (by decide))
  · exact ⟨by decide, by decide⟩
  · exact ⟨by decide, by decide⟩
  · exact ⟨by decide, by decide⟩

/-- Every character of a sanitized label is an underscore or a clean
character (in particular, no colon survives `safe`). -/
theorem safe_chars (s : String) (c : Char) (hc : c ∈ (safe s).toList) :
    c = '_' ∨ safeBad c = false := by
  simp only [safe] at hc
  by_cases he : ((collapseBadAux false
      (pyStripList (if s = "" then "unknown" else s).toList)).take 120).isEmpty = true
  · rw [if_pos he] at hc
    have hu : "unknown".toList = ['u', 'n', 'k', 'n', 'o', 'w', 'n'] := rfl
    rw [hu] at hc
    simp only [List.mem_cons, List.not_mem_nil, or_false] at hc
    rcases hc with rfl | rfl | rfl | rfl | rfl | rfl | rfl <;> (right; decide)
  · rw [if_neg he] at hc
    rcases collapse_mem _ false c (List.mem_of_mem_take hc) with h | ⟨_, h⟩
    · exact Or.inl h
    · exact Or.inr h

/-- A phone-regex character (whitespace included) is never a character
that `safe` replaces. -/
theorem phone_char_not_bad (c : Char)
    (h : c = '+' ∨ c.isDigit = true ∨ phoneClassChar c = true) :
    safeBad c = false := by
  rcases h with rfl | hdig | h
  · decide
  · unfold safeBad
    simp only [Bool.or_eq_false_iff, decide_eq_false_iff_not]
    refine ⟨⟨⟨⟨⟨⟨⟨⟨?_, ?_⟩, ?_⟩, ?_⟩, ?_⟩, ?_⟩, ?_⟩, ?_⟩, ?_⟩ <;>
      (rintro rfl; exact absurd hdig (by decide))
  · have h' : c.isDigit = true ∨ isPySpace c = true ∨ c = '-' ∨ c = '(' ∨ c = ')' := by
      simpa [phoneClassChar, Bool.or_eq_true, decide_eq_true_eq, or_assoc] using h
    rcases h' with hdig | hsp | rfl | rfl | rfl
    · unfold safeBad
      simp only [Bool.or_eq_false_iff, decide_eq_false_iff_not]
      refine ⟨⟨⟨⟨⟨⟨⟨⟨?_, ?_⟩, ?_⟩, ?_⟩, ?_⟩, ?_⟩, ?_⟩, ?_⟩, ?_⟩ <;>
        (rintro rfl; exact absurd hdig (by decide))
    · have h'' : c = ' ' ∨ c = '\t' ∨ c = '\n' ∨ c = '\r' ∨ c = '\x0b' ∨ c = '\x0c' := by
        simpa [isPySpace, Bool.or_eq_true, decide_eq_true_eq, or_assoc] using hsp
      rcases h'' with rfl | rfl | rfl | rfl | rfl | rfl <;> decide
    · decide
    · decide
    · decide

/-- The amended non-group phone half of C9: a raw name that strips to a
phone-number-like string with no internal whitespace keeps its shape
through stripping, first-name extraction and sanitization, so the
emitted flag is true. -/
theorem thread_unknown_of_phone (raw : String)
    (hph : phone_like_chars (pyStripList raw.toList) = true)
    (hnsp : (pyStripList raw.toList).all (fun c => !isPySpace c) = true) :
    thread_unknown raw false = true := by
  have hnsp' : ∀ c ∈ pyStripList raw.toList, isPySpace c = false := by
    rw [List.all_eq_true] at hnsp
    intro c hc
    simpa using hnsp c hc
  have hmem := phone_mem _ hph
  have hsep : (pyStripList raw.toList).all (fun c => !isSepChar c) = true := by
    rw [List.all_eq_true]
    intro c hc
    simpa using (phone_char_not_sep_bad c (hmem c hc) (hnsp' c hc)).1
  have hbad : (pyStripList raw.toList).all (fun c => !safeBad c) = true := by
    rw [List.all_eq_true]
    intro c hc
    simpa using phone_char_not_bad c (hmem c hc)
  have hcne : pyStripList raw.toList ≠ [] := by
    intro h
    rw [h] at hph
    simp [phone_like_chars] at hph
  have hraw : ¬ raw = "" := by
    intro h
    apply hcne
    rw [h]
    rfl
  have hfn : first_name raw = ⟨pyStripList raw.toList⟩ := by
    unfold first_name
    rw [if_neg hraw, takeWhile_of_all _ _ hsep]
  have hfn_ne : ¬ first_name raw = "" := by
    rw [hfn]
    intro h
    apply hcne
    have h2 := congrArg String.toList h
    simpa using h2
  have hdisp : display_name raw false = ⟨pyStripList raw.toList⟩ := by
    unfold display_name
    rw [if_neg Bool.false_ne_true, if_neg hfn_ne, hfn]
  have htk : (pyStripList raw.toList).take 120 ≠ [] := by
    cases hr : pyStripList raw.toList with
    | nil => exact absurd hr hcne
    | cons a t =>
      rw [show (120 : Nat) = 119 + 1 from by norm_num, List.take_succ_cons]
      simp
  have hie : ((pyStripList raw.toList).take 120).isEmpty = false := by
    rw [← Bool.not_eq_true, List.isEmpty_iff]
    exact htk
  have hmk_ne : ¬ (⟨pyStripList raw.toList⟩ : String) = "" := by
    intro h
    apply hcne
    have h2 := congrArg String.toList h
    simpa using h2
  have hstrip2 : pyStripList (⟨pyStripList raw.toList⟩ : String).toList =
      pyStripList raw.toList := by
    show pyStripList (pyStripList raw.toList) = pyStripList raw.toList
    exact pyStripList_id _ hnsp
  have hlabel : thread_label raw false = ⟨(pyStripList raw.toList).take 120⟩ := by
    unfold thread_label
    rw [hdisp]
    simp only [safe]
    rw [if_neg hmk_ne, hstrip2, collapse_id _ hbad, hie, if_neg Bool.false_ne_true]
  unfold thread_unknown
  rw [hlabel]
  unfold looks_unknown
  have hph120 : phone_like_chars (List.take 120 (pyStripList raw.data)) = true :=
    phone_take _ hph
  simp [hph120]

/-- The group phone half of C9: a group keeps its raw name verbatim
(only `safe` is applied), so a raw name that strips to a
phone-number-like string — internal whitespace allowed, since the phone
regex accepts it — is flagged unknown. -/
theorem thread_unknown_of_phone_group (raw : String)
    (hph : phone_like_chars (pyStripList raw.toList) = true) :
    thread_unknown raw true = true := by
  have hmem := phone_mem _ hph
  have hbad : (pyStripList raw.toList).all (fun c => !safeBad c) = true := by
    rw [List.all_eq_true]
    intro c hc
    simpa using phone_char_not_bad c (hmem c hc)
  have hcne : pyStripList raw.toList ≠ [] := by
    intro h
    rw [h] at hph
    simp [phone_like_chars] at hph
  have hraw : ¬ raw = "" := by
    intro h
    apply hcne
    rw [h]
    rfl
  have hdisp : display_name raw true = raw := by
    unfold display_name
    rw [if_pos rfl]
  have htk : (pyStripList raw.toList).take 120 ≠ [] := by
    cases hr : pyStripList raw.toList with
    | nil => exact absurd hr hcne
    | cons a t =>
      rw [show (120 : Nat) = 119 + 1 from by norm_num, List.take_succ_cons]
      simp
  have hie : ((pyStripList raw.toList).take 120).isEmpty = false := by
    rw [← Bool.not_eq_true, List.isEmpty_iff]
    exact htk
  have hlabel : thread_label raw true = ⟨(pyStripList raw.toList).take 120⟩ := by
    unfold thread_label
    rw [hdisp]
    simp only [safe]
    rw [if_neg hraw, collapse_id _ hbad, hie, if_neg Bool.false_ne_true]
  unfold thread_unknown
  rw [hlabel]
  unfold looks_unknown
  have hph120 : phone_like_chars (List.take 120 (pyStripList raw.data)) = true :=
    phone_take _ hph
  simp [hph120]

/-- The readable half of C9, for group and non-group conversations
alike: when the derived label contains a Latin letter outside the
hexadecimal range, none of the unknown-identity patterns can match, so
the emitted flag is false. -/
theorem thread_unknown_of_readable (raw : String) (g : Bool) (c : Char)
    (hcmem : c ∈ (thread_label raw g).toList)
    (halpha : c.isAlpha = true) (hhex : hexClassChar c = false) :
    thread_unknown raw g = false := by
  have hdig : c.isDigit = false := by
    unfold hexClassChar at hhex
    simp only [Bool.or_eq_false_iff] at hhex
    exact hhex.1.1.1
  have hdash : ¬ c = '-' := by
    unfold hexClassChar at hhex
    simp only [Bool.or_eq_false_iff, decide_eq_false_iff_not] at hhex
    exact hhex.2
  unfold thread_unknown looks_unknown
  simp only [Bool.or_eq_false_iff]
  refine ⟨⟨⟨?_, ?_⟩, ?_⟩, ?_⟩
  · rw [beq_eq_false_iff_ne]
    intro h
    rw [h] at hcmem
    simp at hcmem
  · rw [← Bool.not_eq_true, List.isPrefixOf_iff_prefix]
    intro hpre
    have hcolon : ':' ∈ (thread_label raw g).toList :=
      List.Sublist.mem (show ':' ∈ "conv:".toList from by decide) hpre.sublist
    unfold thread_label at hcolon
    rcases safe_chars _ ':' hcolon with h | ⟨-, h⟩ <;> exact absurd h (by decide)
  · rw [← Bool.not_eq_true]
    intro hpt
    rcases phone_mem _ hpt c hcmem with rfl | h | h
    · exact absurd halpha (by decide)
    · rw [h] at hdig
      cases hdig
    · have h' : c.isDigit = true ∨ isPySpace c = true ∨ c = '-' ∨ c = '(' ∨ c = ')' := by
        simpa [phoneClassChar, Bool.or_eq_true, decide_eq_true_eq, or_assoc] using h
      rcases h' with h | h | h | h | h
      · rw [h] at hdig
        cases hdig
      · rw [pySpace_not_alpha c h] at halpha
        cases halpha
      · exact hdash h
      · rw [h] at halpha
        exact absurd halpha (by decide)
      · rw [h] at halpha
        exact absurd halpha (by decide)
  · rw [← Bool.not_eq_true]
    intro hht
    unfold hex_like_chars at hht
    rw [Bool.and_eq_true] at hht
    have := List.all_eq_true.mp hht.2 c hcmem
    rw [this] at hhex
    cases hhex

/-- C9 (amended): a non-group conversation whose raw name strips to a
phone-number-like string with no internal whitespace (so that first-name
extraction keeps it intact) is flagged unknown-identity; a group
conversation whose raw name strips to a phone-number-like string (kept
verbatim, internal whitespace allowed) is flagged unknown-identity; and
every conversation, group or not, with a readable free-text name —
formalized as one whose derived label contains a Latin letter outside
the hexadecimal range — is flagged known. -/
theorem C9_unknown_flag (raw : String) :
    (phone_like_chars (pyStripList raw.toList) = true →
      (pyStripList raw.toList).all (fun c => !isPySpace c) = true →
      thread_unknown raw false = true) ∧
    (phone_like_chars (pyStripList raw.toList) = true →
      thread_unknown raw true = true) ∧
    (∀ g : Bool, (∃ c ∈ (thread_label raw g).toList,
        c.isAlpha = true ∧ hexClassChar c = false) →
      thread_unknown raw g = false) := by
  refine ⟨thread_unknown_of_phone raw, thread_unknown_of_phone_group raw, ?_⟩
  rintro g ⟨c, hc, h1, h2⟩
  exact thread_unknown_of_readable raw g c hc h1 h2

/-- Counterexample to C9 as stated: the raw name
`"+33 6 12 34 56 78"` is a bare phone-number-like string (it fully
matches the phone regex), yet the emitted unknown-identity flag is false,
because first-name extraction truncates the name to `"+33"`, which is too
short for the phone pattern. -/
theorem C9_unknown_flag_counterexample :
    phone_like_chars "+33 6 12 34 56 78".toList = true ∧
    thread_unknown "+33 6 12 34 56 78" false = false := by
  constructor
  · decide
  · decide

/-- Closed witness for C9 at concrete inputs: a separator-free phone
number (with or without surrounding whitespace) is flagged unknown for an
individual, a spaced phone number is flagged unknown for a group, and
readable names are flagged known for individuals and groups alike. -/
theorem C9_unknown_flag_witness :
    thread_unknown "+33612345678" false = true ∧
    thread_unknown " +3361234 " false = true ∧
    thread_unknown "+33 6 12 34 56 78" true = true ∧
    thread_unknown "Alice" false = false ∧
    thread_unknown "Family Chat" true = false := by
  refine ⟨?_, ?_, ?_, ?_, ?_⟩
  · exact (C9_unknown_flag "+33612345678").1 (by decide) (by decide)
  · exact (C9_unknown_flag " +3361234 ").1 (by decide) (by decide)
  · exact (C9_unknown_flag "+33 6 12 34 56 78").2.1 (by decide)
  · exact (C9_unknown_flag "Alice").2.2 false ⟨'l', by decide, by decide, by decide⟩
  · exact (C9_unknown_flag "Family Chat").2.2 true ⟨'m', by decide, by decide, by decide⟩

/-- A 512-byte sample in which every byte value appears exactly twice has
Shannon entropy exactly 8 bits/byte. -/
theorem entropy_uniform512 (b : List Nat) (hlen : b.length = 512)
    (hc : ∀ i ∈ Finset.range 256, b.count i = 2) : byte_entropy b = 8 := by
  have hne : b.isEmpty = false := by
    cases b with
    | nil => simp at hlen
    | cons x xs => rfl
  unfold byte_entropy
  rw [hne, if_neg Bool.false_ne_true]
  have hterm : ∀ i ∈ Finset.range 256, entTerm (b.count i) b.length = entTerm 2 512 := by
    intro i hi
    rw [hc i hi, hlen]
  rw [Finset.sum_congr rfl hterm, Finset.sum_const, Finset.card_range]
  have h2 : entTerm 2 512 = -(1 / 32 : ℝ) := by
    unfold entTerm
    rw [if_neg (by norm_num)]
    have hq : ((2 : ℕ) : ℝ) / ((512 : ℕ) : ℝ) = (256 : ℝ)⁻¹ := by
      norm_num
    rw [hq, Real.logb_inv]
    have h256 : Real.logb 2 256 = 8 := by
      have h2p : (256 : ℝ) = 2 ^ (8 : ℕ) := by norm_num
      rw [h2p, Real.logb_pow, Real.logb_self_eq_one (by norm_num)]
      norm_num
    rw [h256]
    norm_num
  rw [h2, nsmul_eq_mul]
  norm_num

/-- Counterexample to C2 as stated: `cexBytes` starts with a recognized
WEBP magic (per the claim's table), yet `likely_encrypted_file` holds for
it when the extension lookup yields the generic type (e.g. a `.bin`
name): the code's own early-return table omits WEBP, the sniffed MIME is
the extension result `application/octet-stream`, and the uniform sample
has entropy 8 > 7.4. -/
theorem C2_heuristic_counterexample :
    claim_magic cexBytes = true ∧
    likely_encrypted_file (some "application/octet-stream") cexBytes := by
  have htake : cexBytes.take 4096 = cexBytes := List.take_of_length_le (by decide)
  constructor
  · decide
  · refine ⟨?_, ?_, rfl, ?_⟩
    · rw [htake]
      decide
    · rw [htake]
      decide
    · rw [htake]
      have h8 : byte_entropy cexBytes = 8 :=
        entropy_uniform512 cexBytes (by decide) (by decide)
      rw [h8]
      norm_num

/-- C2 (amended): the early return of `likely_encrypted_file` covers
exactly the PNG/JPEG/GIF/PDF magics (not WEBP); for a sample without one
of those prefixes the heuristic holds iff the sniffed MIME type is the
generic octet-stream type and the entropy of the at-most-4096-byte
sample strictly exceeds 7.4 bits/byte. -/
theorem C2_heuristic_amended (extMime : Option String) (data : List Nat) :
    (ownMagic (data.take 4096) = true → ¬ likely_encrypted_file extMime data) ∧
    (ownMagic (data.take 4096) = false →
      (likely_encrypted_file extMime data ↔
        guess_mime extMime data = "application/octet-stream" ∧
        byte_entropy (data.take 4096) > 7.4)) := by
  constructor
  · intro h hlik
    rw [hlik.2.1] at h
    cases h
  · intro h
    constructor
    · intro hlik
      exact ⟨hlik.2.2.1, hlik.2.2.2⟩
    · rintro ⟨hm, he⟩
      refine ⟨?_, h, hm, he⟩
      intro hb
      rw [hb] at he
      have h0 : byte_entropy ([] : List Nat) = 0 := by simp [byte_entropy]
      rw [h0] at he
      norm_num at he

/-- Closed witness for C2 (amended) at a PNG-headed input. -/
theorem C2_heuristic_amended_witness :
    ¬ likely_encrypted_file none [0x89, 0x50, 0x4E, 0x47, 1, 2] :=
  (C2_heuristic_amended none [0x89, 0x50, 0x4E, 0x47, 1, 2]).1 (by decide)

/-- Closed witness for C3: the first candidate decodes to a single byte
(below 32), the second to 48 zero bytes, so the second is chosen and
truncated; two failing candidates give `none`. -/
theorem C3_key_extraction_witness :
    extract_key (some "zz") (some ⟨List.replicate 64 'A'⟩) =
      some (List.replicate 32 0) ∧
    extract_key (some "zz") (some "zz") = none := by
  constructor
  · have h := (C3_key_extraction (some "zz") (some ⟨List.replicate 64 'A'⟩)).2.1
    have hres := h (by decide) (List.replicate 48 0) (by decide) (by decide)
    rw [hres.1]
    have : (List.replicate 48 (0 : Nat)).take 32 = List.replicate 32 0 := by decide
    rw [this]
  · exact (C3_key_extraction (some "zz") (some "zz")).2.2 (by decide) (by decide)

/-- C6: a message classified as a call event whose lowercased type or body
contains the miss token has `missed = true`, `out = false` (even when the
input outgoing flag is true, which is covered by the universally
quantified `is_me_change`), and its display phrase is the canonical
missed phrase; the same holds for records synthesized from the
callsHistory table. -/
theorem C6_missed_call (mtype body : Option String) (is_me_change : Bool)
    (ctype : Option String) :
    ((classify_message mtype body is_me_change).kind = some "call" →
      (pyContains (msg_t mtype) "miss" = true ∨
       pyContains (msg_lb body) "miss" = true) →
      (classify_message mtype body is_me_change).missed = true ∧
      (classify_message mtype body is_me_change).out = false ∧
      (classify_message mtype body is_me_change).body =
        (if (classify_message mtype body is_me_change).video
         then "Missed video call" else "Missed voice call")) ∧
    (pyContains (ch_t ctype) "miss" = true →
      (classify_call_history ctype).missed = true ∧
      (classify_call_history ctype).out = false ∧
      (classify_call_history ctype).body =
        (if (classify_call_history ctype).video
         then "Missed video call" else "Missed voice call")) := by
  constructor
  · intro hkind hmiss
    have hm : msg_missed mtype body = true := by
      rcases hmiss with h | h <;> simp [msg_missed, h]
    cases hlc : msg_looks_call mtype body with
    | false =>
      exfalso
      simp [classify_message, hlc] at hkind
    | true =>
      simp [classify_message, hlc, hm]
  · intro hmiss
    simp [classify_call_history, hmiss]

/-- Closed witness for C6 at concrete inputs. -/
theorem C6_missed_call_witness :
    (classify_message none (some "Missed video call") true).missed = true ∧
    (classify_message none (some "Missed video call") true).out = false ∧
    (classify_message none (some "Missed video call") true).body =
      "Missed video call" ∧
    (classify_call_history (some "missed video")).missed = true ∧
    (classify_call_history (some "missed video")).out = false := by
  obtain ⟨h1, h2⟩ :=
    C6_missed_call none (some "Missed video call") true (some "missed video")
  have a := h1 (by decide) (Or.inr (by decide))
  have b := h2 (by decide)
  refine ⟨a.1, a.2.1, ?_, b.1, b.2.1⟩
  have hb := a.2.2
  have hv : (classify_message none (some "Missed video call") true).video = true := by
    decide
  rw [hv] at hb
  simpa using hb

/-- C7: a message whose lowercased type does not contain the token
`"call"` and whose body is the unrelated sentence
`"Thanks for calling earlier"` is not classified as a call event: the
`kind` key is absent, the video and missed fields are not attached (they
default to false), and the body is emitted verbatim. -/
theorem C7_unrelated_call_mention (mtype : Option String) (is_me_change : Bool)
    (h : pyContains (msg_t mtype) "call" = false) :
    (classify_message mtype (some "Thanks for calling earlier") is_me_change).kind
      = none ∧
    (classify_message mtype (some "Thanks for calling earlier") is_me_change).body
      = "Thanks for calling earlier" ∧
    (classify_message mtype (some "Thanks for calling earlier") is_me_change).video
      = false ∧
    (classify_message mtype (some "Thanks for calling earlier") is_me_change).missed
      = false := by
  have hct : msg_is_call_type mtype = false := by
    cases he : msg_t mtype == "call-history" with
    | true =>
      exfalso
      have : msg_t mtype = "call-history" := by
        exact eq_of_beq he
      rw [this] at h
      simp [show pyContains "call-history" "call" = true from by decide] at h
    | false => simp [msg_is_call_type, h, he]
  have hbs : msg_body_suggests_call (some "Thanks for calling earlier") = false := by
    decide
  have hlc : msg_looks_call mtype (some "Thanks for calling earlier") = false := by
    simp [msg_looks_call, hct, hbs]
  simp [classify_message, hlc]
  decide

/-- Closed witness for C7 at a concrete type/flag. -/
theorem C7_unrelated_call_mention_witness :
    (classify_message (some "incoming") (some "Thanks for calling earlier") true).kind
      = none ∧
    (classify_message (some "incoming") (some "Thanks for calling earlier") true).body
      = "Thanks for calling earlier" := by
  have h := C7_unrelated_call_mention (some "incoming") true (by decide)
  exact ⟨h.1, h.2.1⟩

/-- C5: an emitted attachment record that carries a successfully
decrypted path (marked by `originalPath`) has its likely-encrypted flag
false and its MIME and icon recomputed from the decrypted file; no record
carries both a decrypted path and a true likely-encrypted flag. -/
theorem C5_decrypted_clears_flag (env : AttEnv)
    (fileName localKey keyAlt contentType : Option String) :
    ((process_attachment env fileName localKey keyAlt contentType).originalPath.isSome
        = true →
      (process_attachment env fileName localKey keyAlt contentType).likelyEncrypted
        = false ∧
      ∃ drel dext dbytes, env.decResult = some (drel, dext, dbytes) ∧
        (process_attachment env fileName localKey keyAlt contentType).path
          = some drel ∧
        (process_attachment env fileName localKey keyAlt contentType).mime
          = guess_mime dext dbytes ∧
        (process_attachment env fileName localKey keyAlt contentType).icon
          = icon_for_mime (guess_mime dext dbytes)) ∧
    ¬((process_attachment env fileName localKey keyAlt contentType).originalPath.isSome
        = true ∧
      (process_attachment env fileName localKey keyAlt contentType).likelyEncrypted
        = true) := by
  cases hse : env.srcExists with
  | false => simp [process_attachment, hse]
  | true =>
    cases hcr : env.copyRaises with
    | true => simp [process_attachment, hse, hcr]
    | false =>
      cases hEnc : env.encDest with
      | false => simp [process_attachment, hse, hcr, hEnc]
      | true =>
        cases hdec : env.decResult with
        | none =>
          cases hLK : pyFalsy localKey <;> cases hKA : pyFalsy keyAlt <;>
            simp [process_attachment, hse, hcr, hEnc, hLK, hKA, hdec]
        | some triple =>
          obtain ⟨drel, dext, dbytes⟩ := triple
          cases hde : env.decExists with
          | false =>
            cases hLK : pyFalsy localKey <;> cases hKA : pyFalsy keyAlt <;>
              simp [process_attachment, hse, hcr, hEnc, hLK, hKA, hdec, hde]
          | true =>
            cases hLK : pyFalsy localKey <;> cases hKA : pyFalsy keyAlt <;>
              [skip; skip; skip; simp [process_attachment, hse, hcr, hEnc, hLK,
                hKA, hdec, hde]] <;>
            · constructor
              · intro _
                refine ⟨?_, drel, dext, dbytes, rfl, ?_, ?_, ?_⟩ <;>
                  simp [process_attachment, hse, hcr, hEnc, hLK, hKA, hdec, hde]
              · rintro ⟨-, h2⟩
                simp [process_attachment, hse, hcr, hEnc, hLK, hKA, hdec, hde] at h2

/-- Closed witness for C5: a concrete encrypted-looking attachment whose
decryption succeeds is emitted with the flag cleared. -/
theorem C5_decrypted_clears_flag_witness :
    (process_attachment c5EnvW (some "x.bin") (some "KEY") none none).likelyEncrypted
      = false :=
  ((C5_decrypted_clears_flag c5EnvW (some "x.bin") (some "KEY") none none).1
    (by decide)).1

/-- C8: a message with empty trimmed body whose attachments all lack a
resolved path fails the survival predicate, and every emitted thread has a
nonempty message list in which every message has a nonempty trimmed body
or an attachment with a truthy path. -/
theorem C8_empty_dropped (threads : List (String × List Msg))
    (avatarOf : String → Option String) (avatarEnc : String → Bool) :
    (∀ m : Msg, pyStrip m.body = "" → (∀ a ∈ m.atts, a.path = none) →
      keep_message m = false) ∧
    (∀ t ∈ build_data threads avatarOf avatarEnc,
      t.messages ≠ [] ∧
      ∀ mo ∈ t.messages,
        ¬(pyStrip mo.body = "") ∨ ∃ a ∈ mo.atts, pyFalsy a.path = false) := by
  constructor
  · intro m hb ha
    unfold keep_message
    rw [hb]
    simp only [beq_self_eq_true, Bool.not_true, Bool.false_or]
    rw [← Bool.not_eq_true, List.any_eq_true]
    rintro ⟨a, hmem, hpa⟩
    rw [ha a hmem] at hpa
    simp [pyFalsy] at hpa
  · intro t ht
    simp only [build_data] at ht
    rcases List.mem_filterMap.mp ht with ⟨p, hp, hfm⟩
    by_cases he : p.2.isEmpty = true
    · rw [if_pos he] at hfm
      cases hfm
    · rw [if_neg he] at hfm
      have ht' := Option.some.inj hfm
      subst ht'
      constructor
      · intro hnil
        have h2 : p.2 = [] := by
          have := congrArg List.length hnil
          simpa using this
        rw [← List.isEmpty_iff] at h2
        exact he h2
      · intro mo hmo
        rcases List.mem_map.mp hmo with ⟨m, hm, rfl⟩
        have hp' := List.mem_mergeSort.mp hp
        rcases List.mem_map.mp hp' with ⟨q, hq, rfl⟩
        have hm' := List.mem_mergeSort.mp hm
        rcases List.mem_map.mp hq with ⟨r, hr, rfl⟩
        have hk := (List.mem_filter.mp hm').2
        unfold keep_message at hk
        rw [Bool.or_eq_true] at hk
        rcases hk with hk | hk
        · left
          intro hbe
          simp only [projMsg] at hbe
          rw [hbe] at hk
          simp at hk
        · right
          rcases List.any_eq_true.mp hk with ⟨a, hmem, hpa⟩
          exact ⟨a, hmem, by simpa using hpa⟩

/-- Closed witness for C8 at a concrete thread table: the empty message
fails the survival predicate and the emitted thread keeps exactly the
surviving message. -/
theorem C8_empty_dropped_witness :
    keep_message c8MsgEmpty = false ∧
    ([projMsg c8MsgGood] : List MsgOut) ≠ [] := by
  have h := C8_empty_dropped c8Threads (fun _ => none) (fun _ => false)
  have hbd : build_data c8Threads (fun _ => none) (fun _ => false) =
      [c8ThreadOut] := by
    unfold build_data c8Threads
    simp only [List.map_cons, List.map_nil]
    rw [show [c8MsgEmpty, c8MsgGood].filter keep_message = [c8MsgGood] from by decide]
    rw [List.mergeSort_singleton, List.mergeSort_singleton]
    decide
  have hmem : c8ThreadOut ∈
      build_data c8Threads (fun _ => none) (fun _ => false) := by
    rw [hbd]
    exact List.mem_singleton.mpr rfl
  exact ⟨h.1 c8MsgEmpty (by decide) (by decide), (h.2 _ hmem).1⟩

/-- The single-slot key loop leaves its accumulator unchanged or returns
the string value of one of the scanned fields. -/
theorem key1Fold_sound (v : List (String × JVal)) (l : List String)
    (q0 : Option String) :
    key1Fold v l q0 = q0 ∨ ∃ kk ∈ l, key1Fold v l q0 = asStr (jGet v kk) := by
  induction l generalizing q0 with
  | nil => exact Or.inl rfl
  | cons kk t ih =>
    unfold key1Fold
    rcases ih (if (asStr (jGet v kk)).isSome && pyFalsy q0 then asStr (jGet v kk)
        else q0) with h | ⟨kk', hmem, h⟩
    · rw [h]
      by_cases hc : ((asStr (jGet v kk)).isSome && pyFalsy q0) = true
      · rw [if_pos hc]
        exact Or.inr ⟨kk, List.mem_cons_self _ _, rfl⟩
      · rw [if_neg hc]
        exact Or.inl rfl
    · exact Or.inr ⟨kk', List.mem_cons_of_mem _ hmem, h⟩

/-- The two-slot key loop: each slot is unchanged or holds the string
value of one of the scanned fields. -/
theorem key12Fold_sound (v : List (String × JVal)) (l : List String)
    (q0 : Option String × Option String) :
    ((key12Fold v l q0).1 = q0.1 ∨
      ∃ kk ∈ l, (key12Fold v l q0).1 = asStr (jGet v kk)) ∧
    ((key12Fold v l q0).2 = q0.2 ∨
      ∃ kk ∈ l, (key12Fold v l q0).2 = asStr (jGet v kk)) := by
  induction l generalizing q0 with
  | nil => exact ⟨Or.inl rfl, Or.inl rfl⟩
  | cons kk t ih =>
    have step : ∃ q1, key12Fold v (kk :: t) q0 = key12Fold v t q1 ∧
        (q1.1 = q0.1 ∨ q1.1 = asStr (jGet v kk)) ∧
        (q1.2 = q0.2 ∨ q1.2 = asStr (jGet v kk)) := by
      refine ⟨_, rfl, ?_⟩
      cases has : asStr (jGet v kk) with
      | none => exact ⟨Or.inl rfl, Or.inl rfl⟩
      | some s =>
        dsimp only
        by_cases h1 : pyFalsy q0.1 = true
        · rw [if_pos h1]
          exact ⟨Or.inr rfl, Or.inl rfl⟩
        · rw [if_neg h1]
          by_cases h2 : pyFalsy q0.2 = true
          · rw [if_pos h2]
            exact ⟨Or.inl rfl, Or.inr rfl⟩
          · rw [if_neg h2]
            exact ⟨Or.inl rfl, Or.inl rfl⟩
    obtain ⟨q1, heq, hp1, hp2⟩ := step
    rw [heq]
    obtain ⟨ih1, ih2⟩ := ih q1
    constructor
    · rcases ih1 with h | ⟨kk', hm, h⟩
      · rw [h]
        rcases hp1 with h' | h'
        · exact Or.inl h'
        · exact Or.inr ⟨kk, List.mem_cons_self _ _, h'⟩
      · exact Or.inr ⟨kk', List.mem_cons_of_mem _ hm, h⟩
    · rcases ih2 with h | ⟨kk', hm, h⟩
      · rw [h]
        rcases hp2 with h' | h'
        · exact Or.inl h'
        · exact Or.inr ⟨kk, List.mem_cons_self _ _, h'⟩
      · exact Or.inr ⟨kk', List.mem_cons_of_mem _ hm, h⟩

/-- One container scan leaves the key slot unchanged or fills it from a
key-like field of that container's dict. -/
theorem scanContainer_key_sound (fields : List (String × JVal))
    (st : Option String × Option String) (ck : String) :
    (scanContainer fields st ck).2 = st.2 ∨
      ∃ v, jGet fields ck = some (JVal.obj v) ∧
        ∃ kk ∈ keyFields, (scanContainer fields st ck).2 = asStr (jGet v kk) := by
  unfold scanContainer
  cases hg : jGet fields ck with
  | none => exact Or.inl rfl
  | some jv =>
    cases jv with
    | obj v =>
      rcases key1Fold_sound v keyFields st.2 with h | ⟨kk, hm, h⟩
      · exact Or.inl h
      · exact Or.inr ⟨v, rfl, kk, hm, h⟩
    | str s => exact Or.inl rfl
    | num => exact Or.inl rfl
    | bool b => exact Or.inl rfl
    | null => exact Or.inl rfl
    | arr xs => exact Or.inl rfl

/-- The container loop leaves the key slot unchanged or fills it from
one of the scanned containers. -/
theorem scanContainers_key_sound (fields : List (String × JVal))
    (l : List String) (st : Option String × Option String) :
    (scanContainers fields l st).2 = st.2 ∨
      ∃ ck ∈ l, ∃ v, jGet fields ck = some (JVal.obj v) ∧
        ∃ kk ∈ keyFields, (scanContainers fields l st).2 = asStr (jGet v kk) := by
  induction l generalizing st with
  | nil => exact Or.inl rfl
  | cons ck t ih =>
    unfold scanContainers
    rcases ih (scanContainer fields st ck) with h | ⟨ck', hm, v, hv, kk, hkk, h⟩
    · rw [h]
      rcases scanContainer_key_sound fields st ck with h' | ⟨v, hv, kk, hkk, h'⟩
      · exact Or.inl h'
      · exact Or.inr ⟨ck, List.mem_cons_self _ _, v, hv, kk, hkk, h'⟩
    · exact Or.inr ⟨ck', List.mem_cons_of_mem _ hm, v, hv, kk, hkk, h⟩

/-- The trailing profileAvatar pass: each key slot is unchanged or filled
from a key-like field of the profileAvatar dict. -/
theorem scanPA_key_sound (fields : List (String × JVal))
    (st : Option String × Option String × Option String) :
    ((scanPA fields st).2.1 = st.2.1 ∨
      ∃ v, jGet fields "profileAvatar" = some (JVal.obj v) ∧
        ∃ kk ∈ keyFields, (scanPA fields st).2.1 = asStr (jGet v kk)) ∧
    ((scanPA fields st).2.2 = st.2.2 ∨
      ∃ v, jGet fields "profileAvatar" = some (JVal.obj v) ∧
        ∃ kk ∈ keyFields, (scanPA fields st).2.2 = asStr (jGet v kk)) := by
  unfold scanPA
  cases hg : jGet fields "profileAvatar" with
  | none => exact ⟨Or.inl rfl, Or.inl rfl⟩
  | some jv =>
    cases jv with
    | obj v =>
      obtain ⟨h1, h2⟩ := key12Fold_sound v keyFields (st.2.1, st.2.2)
      constructor
      · rcases h1 with h | ⟨kk, hm, h⟩
        · exact Or.inl h
        · exact Or.inr ⟨v, rfl, kk, hm, h⟩
      · rcases h2 with h | ⟨kk, hm, h⟩
        · exact Or.inl h
        · exact Or.inr ⟨v, rfl, kk, hm, h⟩
    | str s => exact ⟨Or.inl rfl, Or.inl rfl⟩
    | num => exact ⟨Or.inl rfl, Or.inl rfl⟩
    | bool b => exact ⟨Or.inl rfl, Or.inl rfl⟩
    | null => exact ⟨Or.inl rfl, Or.inl rfl⟩
    | arr xs => exact ⟨Or.inl rfl, Or.inl rfl⟩

/-- Counterexample to C10 as stated: on
`{"profileAvatar": {"localKey": "K"}}` the extractor fills both key slots
with the same value `"K"` (the profileAvatar container is scanned twice),
so the two collected key-like values are not distinct. -/
theorem C10_avatar_keys_counterexample :
    (parse_avatar_info_from_json (some (Except.ok (JVal.obj c10Fields)))).2.1 =
      (parse_avatar_info_from_json (some (Except.ok (JVal.obj c10Fields)))).2.2 ∧
    (parse_avatar_info_from_json (some (Except.ok (JVal.obj c10Fields)))).2.1 =
      some "K" := by
  constructor
  · rfl
  · rfl

/-- C10 (amended): avatar key-material parsing never raises (it is a
total function of the modelled `json.loads` outcome); absent input, a
parse failure, and a parsed non-object all yield no path and no keys; and
each of the (up to two, not necessarily distinct) collected key slots
holds a value taken from a key-like field (`localKey`, `key`,
`profileKey`, `attachmentKey`, `keyMaterial`) of one of the known
containers (`profileAvatarPath`, `avatarPath`, `profileAvatar`) — the
second slot specifically from the profileAvatar container. -/
theorem C10_avatar_keys (e : Unit) (j : JVal)
    (fields : List (String × JVal)) (k : String) :
    parse_avatar_info_from_json none = (none, none, none) ∧
    parse_avatar_info_from_json (some (Except.error e)) = (none, none, none) ∧
    ((∀ fl, j ≠ JVal.obj fl) →
      parse_avatar_info_from_json (some (Except.ok j)) = (none, none, none)) ∧
    ((parse_avatar_info_from_json (some (Except.ok (JVal.obj fields)))).2.1 = some k →
      keyCandidate fields k) ∧
    ((parse_avatar_info_from_json (some (Except.ok (JVal.obj fields)))).2.2 = some k →
      paKeyCandidate fields k) := by
  refine ⟨rfl, rfl, ?_, ?_, ?_⟩
  · intro h
    cases j with
    | obj fl => exact absurd rfl (h fl)
    | str s => rfl
    | num => rfl
    | bool b => rfl
    | null => rfl
    | arr xs => rfl
  · intro h
    unfold parse_avatar_info_from_json at h
    rcases (scanPA_key_sound fields
        ((scanContainers fields containerKeys (none, none)).1,
         (scanContainers fields containerKeys (none, none)).2, none)).1 with
      h1 | ⟨v, hv, kk, hkk, h1⟩
    · have hst : (scanContainers fields containerKeys (none, none)).2 = some k :=
        h1.symm.trans h
      rcases scanContainers_key_sound fields containerKeys (none, none) with
        h2 | ⟨ck, hm, v, hv, kk, hkk, h2⟩
      · rw [h2] at hst
        cases hst
      · exact ⟨ck, hm, v, hv, kk, hkk, h2.symm.trans hst⟩
    · exact ⟨"profileAvatar", by decide, v, hv, kk, hkk, h1.symm.trans h⟩
  · intro h
    unfold parse_avatar_info_from_json at h
    rcases (scanPA_key_sound fields
        ((scanContainers fields containerKeys (none, none)).1,
         (scanContainers fields containerKeys (none, none)).2, none)).2 with
      h1 | ⟨v, hv, kk, hkk, h1⟩
    · rw [h1] at h
      cases h
    · exact ⟨v, hv, kk, hkk, h1.symm.trans h⟩

/-- Closed witness for C10 (amended): a parsed non-object yields no path
and no keys, and on the counterexample blob the filled slot is a key-like
candidate. -/
theorem C10_avatar_keys_witness :
    parse_avatar_info_from_json (some (Except.ok JVal.null)) = (none, none, none) ∧
    keyCandidate c10Fields "K" := by
  obtain ⟨-, -, h3, h4, -⟩ := C10_avatar_keys () JVal.null c10Fields "K"
  refine ⟨h3 ?_, h4 (by decide)⟩
  intro fl hfl
  cases hfl

end SignalExport
